import Mathlib

/-!
Verification development for the particle-cosmos repository.

The numerical core of `src/main.ts` (mode table, blended mode parameters,
per-particle force integration with boundary clamping, blend-state ticking,
mode-transition requests with target resampling, click bursts) and the
guard structure of the ambient sound engine (`src/audio.ts`) are shallowly
embedded over `ℚ`.  JavaScript `Math.sqrt` is represented by an explicit
function parameter `sqrt : ℚ → ℚ` (theorems that depend on its value add the
defining hypothesis at the relevant argument), and `Math.random()` draws are
explicit parameters / streams `ρ : ℕ → ℚ` valued in `[0, 1)`.
-/

namespace ParticleCosmos

/-- Lateral world bound, `const BOUNDS = 40` in `main.ts`. -/
def BOUNDS : ℚ := 40

/-- Mode preset record, mirroring `interface Mode` in `main.ts`
(the `desc` string is omitted as it is pure UI text). -/
structure Mode where
  name : String
  hueRange : ℚ × ℚ
  satRange : ℚ × ℚ
  lightRange : ℚ × ℚ
  damping : ℚ
  mouseForce : ℚ
  drift : ℚ
  centerPull : ℚ
  equilibrium : ℚ
  swirl : ℚ
  sizeRange : ℚ × ℚ
  bloom : ℚ
  depthRange : ℚ

/-- Mode 0, `nebula`. -/
def nebula : Mode :=
  { name := "nebula"
    hueRange := (0.58, 0.82)
    satRange := (0.5, 1.0)
    lightRange := (0.3, 0.75)
    damping := 0.988
    mouseForce := 12
    drift := 0.02
    centerPull := 0.0008
    equilibrium := 12
    swirl := 0.0
    sizeRange := (0.4, 2.8)
    bloom := 1.5
    depthRange := 25 }

/-- Mode 1, `solar`. -/
def solar : Mode :=
  { name := "solar"
    hueRange := (0.0, 0.1)
    satRange := (0.7, 1.0)
    lightRange := (0.45, 0.9)
    damping := 0.982
    mouseForce := 18
    drift := 0.04
    centerPull := 0.002
    equilibrium := 8
    swirl := 0.0
    sizeRange := (0.3, 3.5)
    bloom := 2.2
    depthRange := 18 }

/-- Mode 2, `aurora`. -/
def aurora : Mode :=
  { name := "aurora"
    hueRange := (0.28, 0.52)
    satRange := (0.6, 1.0)
    lightRange := (0.3, 0.7)
    damping := 0.993
    mouseForce := 6
    drift := 0.012
    centerPull := 0.0004
    equilibrium := 15
    swirl := 0.002
    sizeRange := (0.3, 2.2)
    bloom := 1.2
    depthRange := 30 }

/-- Mode 3, `vortex`. -/
def vortex : Mode :=
  { name := "vortex"
    hueRange := (0.0, 1.0)
    satRange := (0.8, 1.0)
    lightRange := (0.4, 0.7)
    damping := 0.984
    mouseForce := 10
    drift := 0.01
    centerPull := 0.003
    equilibrium := 10
    swirl := 0.02
    sizeRange := (0.2, 2.0)
    bloom := 1.8
    depthRange := 12 }

/-- Mode 4, `void`. -/
def voidMode : Mode :=
  { name := "void"
    hueRange := (0.55, 0.68)
    satRange := (0.03, 0.15)
    lightRange := (0.5, 0.95)
    damping := 0.996
    mouseForce := 4
    drift := 0.005
    centerPull := 0.0002
    equilibrium := 18
    swirl := 0.0
    sizeRange := (0.15, 1.2)
    bloom := 2.8
    depthRange := 40 }

/-- The mode table `MODES` of `main.ts`. -/
def MODES : List Mode := [nebula, solar, aurora, vortex, voidMode]

/-- Linear interpolation, `lerp` in `main.ts`. -/
def lerp (a b t : ℚ) : ℚ := a + (b - a) * t

/-- The blend-interpolated active mode, `getActiveMode` in `main.ts`:
returns the settled mode at rest, otherwise interpolates the scalar force
fields between settled and target modes by the blend fraction. -/
def getActiveMode (cur tgt : Fin 5) (blend : ℚ) : Mode :=
  if 1 ≤ blend then MODES.get cur
  else
    let a := MODES.get cur
    let b := MODES.get tgt
    let t := blend
    { name := b.name
      hueRange := b.hueRange
      satRange := b.satRange
      lightRange := b.lightRange
      sizeRange := b.sizeRange
      damping := lerp a.damping b.damping t
      mouseForce := lerp a.mouseForce b.mouseForce t
      drift := lerp a.drift b.drift t
      centerPull := lerp a.centerPull b.centerPull t
      equilibrium := lerp a.equilibrium b.equilibrium t
      swirl := lerp a.swirl b.swirl t
      bloom := lerp a.bloom b.bloom t
      depthRange := lerp a.depthRange b.depthRange t }

/-- One particle: position and velocity components (the slices
`positions[i3..i3+2]` and `velocities[i3..i3+2]` of the parallel buffers). -/
structure Particle where
  px : ℚ
  py : ℚ
  pz : ℚ
  vx : ℚ
  vy : ℚ
  vz : ℚ
deriving DecidableEq

/-- Per-tick inputs of `updateParticles` that are external to a particle:
the timestep, the `Math.sqrt` oracle, the pointer state consumed for the
mouse-gravity term, and the three centered `Math.random()` draws used by the
thermal-drift term. -/
structure StepInput where
  dt : ℚ
  sqrt : ℚ → ℚ
  mouseDown : Bool
  mouseActive : Bool
  repelling : Bool
  mx : ℚ
  my : ℚ
  mz : ℚ
  r1 : ℚ
  r2 : ℚ
  r3 : ℚ

/-- Soft boundary for one axis (`main.ts` lines 527-532, per axis):
clamp the position to `[-bound, bound]`; each clamp that fires multiplies
the velocity component by `-0.3`.  The two `if`s run in sequence exactly as
in the source. -/
def softBoundary (bound p v : ℚ) : ℚ × ℚ :=
  let s1 : ℚ × ℚ := if bound < p then (bound, v * (-0.3)) else (p, v)
  if s1.1 < -bound then (-bound, s1.2 * (-0.3)) else s1

/-- Force accumulation, damping and integration of one particle — the body
of the `updateParticles` loop before the boundary clamp.  `inp.sqrt` stands
for `Math.sqrt`; `inp.r1, inp.r2, inp.r3` stand for the three
`Math.random()` results of the drift term. -/
def integrateForces (m : Mode) (inp : StepInput) (p : Particle) : Particle :=
  let forceDir : ℚ := if inp.repelling then -2.0 else 1.0
  let mf : ℚ :=
    if inp.mouseDown then m.mouseForce * forceDir
    else if inp.mouseActive then m.mouseForce * 0.25 else 0
  let eq := m.equilibrium
  let px := p.px
  let py := p.py
  let pz := p.pz
  let centerDist := inp.sqrt (px * px + py * py + pz * pz) + 0.1
  let pullForce := m.centerPull * (centerDist - eq)
  let vx := p.vx - px / centerDist * pullForce
  let vy := p.vy - py / centerDist * pullForce
  let vz := p.vz - pz / centerDist * pullForce * 0.3
  let v1 : ℚ × ℚ × ℚ :=
    if mf ≠ 0 then
      let dx := inp.mx - px
      let dy := inp.my - py
      let dz := inp.mz - pz
      let distSq := dx * dx + dy * dy + dz * dz + 4
      let f := mf * inp.dt / distSq
      (vx + dx * f, vy + dy * f, vz + dz * f * 0.2)
    else (vx, vy, vz)
  let v2 : ℚ × ℚ × ℚ :=
    if 0 < m.swirl then
      let dist := inp.sqrt (px * px + pz * pz) + 0.5
      (v1.1 + -pz / dist * m.swirl, v1.2.1, v1.2.2 + px / dist * m.swirl)
    else v1
  let dvx := v2.1 + (inp.r1 - 0.5) * m.drift
  let dvy := v2.2.1 + (inp.r2 - 0.5) * m.drift
  let dvz := v2.2.2 + (inp.r3 - 0.5) * m.drift * 0.3
  let wx := dvx * m.damping
  let wy := dvy * m.damping
  let wz := dvz * m.damping
  { px := px + wx * inp.dt * 60
    py := py + wy * inp.dt * 60
    pz := pz + wz * inp.dt * 60
    vx := wx
    vy := wy
    vz := wz }

/-- The boundary clamp of `updateParticles`: square bound `BOUNDS` on the
two lateral axes, `m.depthRange` on the depth axis. -/
def applyBoundary (m : Mode) (p : Particle) : Particle :=
  let bx := softBoundary BOUNDS p.px p.vx
  let bY := softBoundary BOUNDS p.py p.vy
  let bz := softBoundary m.depthRange p.pz p.vz
  { px := bx.1, py := bY.1, pz := bz.1, vx := bx.2, vy := bY.2, vz := bz.2 }

/-- One full `updateParticles` pass over a single particle. -/
def step1 (m : Mode) (inp : StepInput) (p : Particle) : Particle :=
  applyBoundary m (integrateForces m inp p)

/-- Iterated stepping of a single particle under a per-tick input stream. -/
def iterSteps (m : Mode) (env : ℕ → StepInput) (p : Particle) : ℕ → Particle
  | 0 => p
  | n + 1 => step1 m (env n) (iterSteps m env p n)

/-- Squared velocity magnitude of a particle. -/
def vsq (p : Particle) : ℚ := p.vx ^ 2 + p.vy ^ 2 + p.vz ^ 2

-- ── helper lemmas ──────────────────────────────────────────────────────

theorem softBoundary_mem (bound p v : ℚ) (hb : 0 ≤ bound) :
    -bound ≤ (softBoundary bound p v).1 ∧ (softBoundary bound p v).1 ≤ bound := by
  have h2 : ¬ (bound < -bound) := by linarith
  by_cases h1 : bound < p
  · simp only [softBoundary, if_pos h1, h2, if_neg, not_false_iff]
    exact ⟨by linarith, by linarith⟩
  · by_cases h3 : p < -bound
    · simp only [softBoundary, if_neg h1, if_pos h3]
      exact ⟨by linarith, by linarith⟩
    · simp only [softBoundary, if_neg h1, if_neg h3]
      push_neg at h1 h3
      exact ⟨h3, h1⟩

theorem softBoundary_vel_sq (bound p v : ℚ) :
    ((softBoundary bound p v).2) ^ 2 ≤ v ^ 2 := by
  by_cases h1 : bound < p
  · by_cases h2 : bound < -bound
    · simp only [softBoundary, if_pos h1, if_pos h2]
      nlinarith [sq_nonneg v]
    · simp only [softBoundary, if_pos h1, if_neg h2]
      nlinarith [sq_nonneg v]
  · by_cases h3 : p < -bound
    · simp only [softBoundary, if_neg h1, if_pos h3]
      nlinarith [sq_nonneg v]
    · simp only [softBoundary, if_neg h1, if_neg h3]
      nlinarith [sq_nonneg v]

theorem lerp_mem (a b t lo hi : ℚ) (ha : lo ≤ a) (ha2 : a ≤ hi) (hb : lo ≤ b)
    (hb2 : b ≤ hi) (ht0 : 0 ≤ t) (ht1 : t ≤ 1) :
    lo ≤ lerp a b t ∧ lerp a b t ≤ hi := by
  unfold lerp
  constructor <;> nlinarith

theorem MODES_depthRange_mem (i : Fin 5) :
    12 ≤ (MODES.get i).depthRange ∧ (MODES.get i).depthRange ≤ 40 := by
  fin_cases i <;> constructor <;> norm_num [ MODES, nebula, solar, aurora, vortex, voidMode]

theorem getActiveMode_depthRange_nonneg (cur tgt : Fin 5) (blend : ℚ)
    (hb : 0 ≤ blend) : 0 ≤ (getActiveMode cur tgt blend).depthRange := by
  unfold getActiveMode
  split
  · linarith [(MODES_depthRange_mem cur).1]
  · rename_i h
    have h1 : blend ≤ 1 := by linarith [lt_of_not_le h]
    have := lerp_mem (MODES.get cur).depthRange (MODES.get tgt).depthRange blend 12 40
      (MODES_depthRange_mem cur).1 (MODES_depthRange_mem cur).2
      (MODES_depthRange_mem tgt).1 (MODES_depthRange_mem tgt).2 hb h1
    dsimp only
    linarith [this.1]

-- ── C1 ─────────────────────────────────────────────────────────────────

/-- C1: at the end of each `updateParticles` step — from an arbitrary
pre-state, hence after any number of ticks following initialization — the
particle's x and y positions lie within `[-BOUNDS, BOUNDS]` and its z
position lies within `[-d, d]` for `d` the blend-interpolated active mode's
`depthRange`.  The blend fraction is only assumed nonnegative, which holds
for every reachable blend state. -/
theorem step_bounds (cur tgt : Fin 5) (blend : ℚ) (hb : 0 ≤ blend)
    (inp : StepInput) (p : Particle) :
    -BOUNDS ≤ (step1 (getActiveMode cur tgt blend) inp p).px ∧
      (step1 (getActiveMode cur tgt blend) inp p).px ≤ BOUNDS ∧
    -BOUNDS ≤ (step1 (getActiveMode cur tgt blend) inp p).py ∧
      (step1 (getActiveMode cur tgt blend) inp p).py ≤ BOUNDS ∧
    -(getActiveMode cur tgt blend).depthRange ≤
        (step1 (getActiveMode cur tgt blend) inp p).pz ∧
      (step1 (getActiveMode cur tgt blend) inp p).pz ≤
        (getActiveMode cur tgt blend).depthRange := by
  have hB : (0 : ℚ) ≤ BOUNDS := by norm_num [BOUNDS]
  have hd := getActiveMode_depthRange_nonneg cur tgt blend hb
  set m := getActiveMode cur tgt blend
  set q := integrateForces m inp p
  have hx := softBoundary_mem BOUNDS q.px q.vx hB
  have hy := softBoundary_mem BOUNDS q.py q.vy hB
  have hz := softBoundary_mem m.depthRange q.pz q.vz hd
  exact ⟨hx.1, hx.2, hy.1, hy.2, hz.1, hz.2⟩

/-- Witness for C1 at a concrete input. -/
theorem step_bounds_witness :
    -BOUNDS ≤ (step1 (getActiveMode 0 1 (1/2))
        ⟨1/60, fun _ => 0, false, false, false, 0, 0, 0, 1/2, 1/2, 1/2⟩
        ⟨39, -39, 10, 5, -5, 1⟩).px ∧
      (step1 (getActiveMode 0 1 (1/2))
        ⟨1/60, fun _ => 0, false, false, false, 0, 0, 0, 1/2, 1/2, 1/2⟩
        ⟨39, -39, 10, 5, -5, 1⟩).px ≤ BOUNDS ∧
    -BOUNDS ≤ (step1 (getActiveMode 0 1 (1/2))
        ⟨1/60, fun _ => 0, false, false, false, 0, 0, 0, 1/2, 1/2, 1/2⟩
        ⟨39, -39, 10, 5, -5, 1⟩).py ∧
      (step1 (getActiveMode 0 1 (1/2))
        ⟨1/60, fun _ => 0, false, false, false, 0, 0, 0, 1/2, 1/2, 1/2⟩
        ⟨39, -39, 10, 5, -5, 1⟩).py ≤ BOUNDS ∧
    -(getActiveMode 0 1 (1/2)).depthRange ≤ (step1 (getActiveMode 0 1 (1/2))
        ⟨1/60, fun _ => 0, false, false, false, 0, 0, 0, 1/2, 1/2, 1/2⟩
        ⟨39, -39, 10, 5, -5, 1⟩).pz ∧
      (step1 (getActiveMode 0 1 (1/2))
        ⟨1/60, fun _ => 0, false, false, false, 0, 0, 0, 1/2, 1/2, 1/2⟩
        ⟨39, -39, 10, 5, -5, 1⟩).pz ≤ (getActiveMode 0 1 (1/2)).depthRange :=
  step_bounds 0 1 (1/2) (by norm_num)
    ⟨1/60, fun _ => 0, false, false, false, 0, 0, 0, 1/2, 1/2, 1/2⟩
    ⟨39, -39, 10, 5, -5, 1⟩

-- ── blend state (C3) ───────────────────────────────────────────────────

/-- Blend state: settled index `currentMode`, `targetMode`, and the blend
fraction `modeBlend` (globals of `main.ts`). -/
structure BlendState where
  currentMode : ℕ
  targetMode : ℕ
  modeBlend : ℚ
deriving DecidableEq

/-- The blend-advance part of `updateParticles` (lines 543-547): while the
fraction is below 1 it advances by `dt * 0.5` clamped to 1, and on reaching
1 commits `currentMode := targetMode`.  The color/size convergence in the
same block touches only the color and size buffers, not this state. -/
def blendTick (dt : ℚ) (b : BlendState) : BlendState :=
  if b.modeBlend < 1 then
    let nb := min (b.modeBlend + dt * 0.5) 1
    { currentMode := if 1 ≤ nb then b.targetMode else b.currentMode
      targetMode := b.targetMode
      modeBlend := nb }
  else b

/-- Blend state after `n` ticks at constant `dt`. -/
def blendSeq (dt : ℚ) (b : BlendState) : ℕ → BlendState
  | 0 => b
  | n + 1 => blendTick dt (blendSeq dt b n)

theorem blendTick_targetMode (dt : ℚ) (b : BlendState) :
    (blendTick dt b).targetMode = b.targetMode := by
  unfold blendTick
  split <;> rfl

theorem blendSeq_targetMode (dt : ℚ) (b : BlendState) (n : ℕ) :
    (blendSeq dt b n).targetMode = b.targetMode := by
  induction n with
  | zero => rfl
  | succ n ih => rw [blendSeq, blendTick_targetMode, ih]

theorem blendSeq_modeBlend (dt : ℚ) (hdt : 0 < dt) (b : BlendState)
    (h0 : b.modeBlend = 0) (n : ℕ) :
    (blendSeq dt b n).modeBlend = min ((n : ℚ) * (dt * 0.5)) 1 := by
  induction n with
  | zero =>
    simp only [blendSeq, h0, Nat.cast_zero, zero_mul]
    rw [min_eq_left (by norm_num)]
  | succ n ih =>
    rw [blendSeq, blendTick]
    by_cases hlt : (blendSeq dt b n).modeBlend < 1
    · rw [if_pos hlt]
      rw [ih] at hlt ⊢
      have hnm : min ((n : ℚ) * (dt * 0.5)) 1 = (n : ℚ) * (dt * 0.5) :=
        min_eq_left (by rcases min_cases ((n : ℚ) * (dt * 0.5)) 1 with h | h <;> [linarith; linarith])
      rw [hnm]
      push_cast
      ring_nf
    · rw [if_neg hlt]
      rw [ih] at hlt ⊢
      push_neg at hlt
      have h1 : min ((n : ℚ) * (dt * 0.5)) 1 = 1 := le_antisymm (min_le_right _ _) hlt
      rw [h1]
      have hge : (1 : ℚ) ≤ ((n : ℚ) + 1) * (dt * 0.5) := by
        have hn : (1 : ℚ) ≤ (n : ℚ) * (dt * 0.5) := by
          by_contra hc
          push_neg at hc
          rw [min_eq_left (le_of_lt hc)] at h1
          linarith
        nlinarith
      push_cast
      rw [min_eq_right (by linarith)]

-- ── C3 ─────────────────────────────────────────────────────────────────

/-- C3: for constant `dt > 0` and an uninterrupted transition started at
fraction 0 — (i) each tick with fraction still below 1 advances it by
`dt * 0.5` clamped to 1; (ii) the fraction is non-decreasing; (iii) it is
exactly 1 after `ceil(2 / dt)` ticks; (iv) on the tick where it reaches 1,
the settled index is set to the target index. -/
theorem blend_monotone_reaches_one (dt : ℚ) (hdt : 0 < dt) (b : BlendState)
    (h0 : b.modeBlend = 0) :
    (∀ n : ℕ, (blendSeq dt b n).modeBlend < 1 →
      (blendSeq dt b (n + 1)).modeBlend =
        min ((blendSeq dt b n).modeBlend + dt * 0.5) 1) ∧
    (∀ n : ℕ, (blendSeq dt b n).modeBlend ≤ (blendSeq dt b (n + 1)).modeBlend) ∧
    (blendSeq dt b (Int.toNat ⌈(2 : ℚ) / dt⌉)).modeBlend = 1 ∧
    (∀ n : ℕ, (blendSeq dt b n).modeBlend < 1 →
      1 ≤ (blendSeq dt b (n + 1)).modeBlend →
      (blendSeq dt b (n + 1)).currentMode = b.targetMode) := by
  refine ⟨?_, ?_, ?_, ?_⟩
  · intro n hn
    rw [blendSeq, blendTick, if_pos hn]
  · intro n
    rw [blendSeq_modeBlend dt hdt b h0 n, blendSeq_modeBlend dt hdt b h0 (n + 1)]
    apply le_min
    · rcases min_cases ((n : ℚ) * (dt * 0.5)) 1 with ⟨h, _⟩ | ⟨h, _⟩
      · rw [h]
        push_cast
        nlinarith
      · rw [h]
        push_cast
        nlinarith
    · exact min_le_right _ _
  · rw [blendSeq_modeBlend dt hdt b h0]
    have hc : (2 : ℚ) / dt ≤ ((Int.toNat ⌈(2 : ℚ) / dt⌉ : ℕ) : ℚ) := by
      have h1 : (2 : ℚ) / dt ≤ (⌈(2 : ℚ) / dt⌉ : ℚ) := Int.le_ceil _
      have h2 : (0 : ℤ) ≤ ⌈(2 : ℚ) / dt⌉ := by
        apply Int.ceil_nonneg
        positivity
      have h3 : ((Int.toNat ⌈(2 : ℚ) / dt⌉ : ℕ) : ℚ) = ((⌈(2 : ℚ) / dt⌉ : ℤ) : ℚ) := by
        exact_mod_cast congrArg (fun z : ℤ => (z : ℚ)) (Int.toNat_of_nonneg h2)
      rw [h3]
      exact h1
    have : (1 : ℚ) ≤ ((Int.toNat ⌈(2 : ℚ) / dt⌉ : ℕ) : ℚ) * (dt * 0.5) := by
      have hd2 : (2 : ℚ) ≤ ((Int.toNat ⌈(2 : ℚ) / dt⌉ : ℕ) : ℚ) * dt := by
        rw [div_le_iff₀ hdt] at hc
        linarith
      nlinarith
    rw [min_eq_right this]
  · intro n hn hge
    rw [blendSeq, blendTick, if_pos hn] at hge ⊢
    simp only at hge ⊢
    rw [if_pos hge]
    exact blendSeq_targetMode dt b n

/-- Witness for C3 at `dt = 1/2`: the transition completes in
`ceil(2 / (1/2)) = 4` ticks. -/
theorem blend_monotone_reaches_one_witness :
    (blendSeq (1/2) ⟨0, 3, 0⟩ (Int.toNat ⌈(2 : ℚ) / (1/2)⌉)).modeBlend = 1 :=
  (blend_monotone_reaches_one (1/2) (by norm_num) ⟨0, 3, 0⟩ rfl).2.2.1

-- ── C2 ─────────────────────────────────────────────────────────────────

/-- The `Math.sqrt` oracle for the void scenario: the only call made is at
`30*30 + 0*0 + 0*0 = 900`, where the exact square root is 30. -/
def sqrtVoidScene : ℚ → ℚ := fun q => if q = 900 then 30 else 0

/-- Step inputs of the void scenario: `dt = 1/60`, no pointer activity, and
all three drift draws at `0.5` so the centered perturbation is zero. -/
def voidSceneInput : StepInput :=
  ⟨1/60, sqrtVoidScene, false, false, false, 0, 0, 0, 1/2, 1/2, 1/2⟩

/-- The scenario's single particle: position `(30, 0, 0)`, velocity zero. -/
def voidSceneStart : Particle := ⟨30, 0, 0, 0, 0, 0⟩

/-- C2 counterexample: in the void scenario the x velocity after one step is
exactly `-90387/37625000 ≈ -0.0024`, whose magnitude exceeds even ten times
the claimed `0.0002 × (30-18)/30 ≈ 0.00008`.  The code multiplies the full
pull force `centerPull * (centerDist - equilibrium)` by the unit direction
`px / centerDist ≈ 1`; it does not divide the force by the distance as the
claimed approximation does. -/
theorem void_center_pull_counterexample :
    (step1 voidMode voidSceneInput voidSceneStart).vx = -90387/37625000 ∧
    ¬ (|(step1 voidMode voidSceneInput voidSceneStart).vx| ≤
        10 * (0.0002 * (30 - 18) / 30)) := by
  have h : (step1 voidMode voidSceneInput voidSceneStart).vx = -90387/37625000 := by
    norm_num [step1, integrateForces, applyBoundary, softBoundary, voidMode,
      voidSceneInput, voidSceneStart, sqrtVoidScene, BOUNDS]
  refine ⟨h, ?_⟩
  rw [h]
  intro hc
  rw [abs_of_nonpos (by norm_num)] at hc
  norm_num at hc

/-- C2 amended: in the void scenario the particle's velocity after one step
gains a negative x component of magnitude
`0.996 × (30/30.1) × 0.0002 × (30.1 - 18) ≈ 0.0024` (exactly
`90387/37625000`; the code offsets the center distance by `+0.1` before
subtracting the equilibrium and scales by the unit radial direction), the
other components stay zero, and the distance from the origin after
integration is strictly less than 30. -/
theorem void_center_pull_amended :
    (step1 voidMode voidSceneInput voidSceneStart).vx < 0 ∧
    (step1 voidMode voidSceneInput voidSceneStart).vx =
      -(0.996 * ((30 / 30.1) * (0.0002 * (30.1 - 18)))) ∧
    0.0023 < |(step1 voidMode voidSceneInput voidSceneStart).vx| ∧
    |(step1 voidMode voidSceneInput voidSceneStart).vx| < 0.0025 ∧
    (step1 voidMode voidSceneInput voidSceneStart).vy = 0 ∧
    (step1 voidMode voidSceneInput voidSceneStart).vz = 0 ∧
    (step1 voidMode voidSceneInput voidSceneStart).py = 0 ∧
    (step1 voidMode voidSceneInput voidSceneStart).pz = 0 ∧
    0 < (step1 voidMode voidSceneInput voidSceneStart).px ∧
    (step1 voidMode voidSceneInput voidSceneStart).px < 30 := by
  have h : (step1 voidMode voidSceneInput voidSceneStart).vx = -90387/37625000 := by
    norm_num [step1, integrateForces, applyBoundary, softBoundary, voidMode,
      voidSceneInput, voidSceneStart, sqrtVoidScene, BOUNDS]
  have hx : (step1 voidMode voidSceneInput voidSceneStart).px = 1128659613/37625000 := by
    norm_num [step1, integrateForces, applyBoundary, softBoundary, voidMode,
      voidSceneInput, voidSceneStart, sqrtVoidScene, BOUNDS]
  have hy : (step1 voidMode voidSceneInput voidSceneStart).vy = 0 := by
    norm_num [step1, integrateForces, applyBoundary, softBoundary, voidMode,
      voidSceneInput, voidSceneStart, sqrtVoidScene, BOUNDS]
  have hz : (step1 voidMode voidSceneInput voidSceneStart).vz = 0 := by
    norm_num [step1, integrateForces, applyBoundary, softBoundary, voidMode,
      voidSceneInput, voidSceneStart, sqrtVoidScene, BOUNDS]
  have hpy : (step1 voidMode voidSceneInput voidSceneStart).py = 0 := by
    norm_num [step1, integrateForces, applyBoundary, softBoundary, voidMode,
      voidSceneInput, voidSceneStart, sqrtVoidScene, BOUNDS]
  have hpz : (step1 voidMode voidSceneInput voidSceneStart).pz = 0 := by
    norm_num [step1, integrateForces, applyBoundary, softBoundary, voidMode,
      voidSceneInput, voidSceneStart, sqrtVoidScene, BOUNDS]
  have habs : |(-90387/37625000 : ℚ)| = 90387/37625000 := by
    rw [abs_of_nonpos (by norm_num)]
    norm_num
  refine ⟨by rw [h]; norm_num, by rw [h]; norm_num, ?_, ?_, hy, hz, hpy, hpz,
    by rw [hx]; norm_num, by rw [hx]; norm_num⟩
  · rw [h, habs]
    norm_num
  · rw [h, habs]
    norm_num

-- ── C5 ─────────────────────────────────────────────────────────────────

theorem vsq_nonneg (p : Particle) : 0 ≤ vsq p := by
  unfold vsq
  positivity

theorem integrateForces_zero (m : Mode) (inp : StepInput) (p : Particle)
    (h0 : m.mouseForce = 0) (h1 : m.drift = 0) (h2 : m.swirl = 0)
    (h3 : m.centerPull = 0) :
    (integrateForces m inp p).vx = p.vx * m.damping ∧
    (integrateForces m inp p).vy = p.vy * m.damping ∧
    (integrateForces m inp p).vz = p.vz * m.damping := by
  unfold integrateForces
  simp only [h0, h1, h2, h3, zero_mul, mul_zero, sub_zero, add_zero, ite_self,
    ne_eq, not_true_eq_false, if_false, lt_self_iff_false, lt_irrefl]
  exact ⟨trivial, trivial, trivial⟩

theorem vsq_applyBoundary_le (m : Mode) (p : Particle) :
    vsq (applyBoundary m p) ≤ vsq p := by
  unfold vsq applyBoundary
  simp only
  have h1 := softBoundary_vel_sq BOUNDS p.px p.vx
  have h2 := softBoundary_vel_sq BOUNDS p.py p.vy
  have h3 := softBoundary_vel_sq m.depthRange p.pz p.vz
  linarith

theorem vsq_step_le (m : Mode) (inp : StepInput) (p : Particle)
    (h0 : m.mouseForce = 0) (h1 : m.drift = 0) (h2 : m.swirl = 0)
    (h3 : m.centerPull = 0) :
    vsq (step1 m inp p) ≤ m.damping ^ 2 * vsq p := by
  obtain ⟨ex, ey, ez⟩ := integrateForces_zero m inp p h0 h1 h2 h3
  have hb := vsq_applyBoundary_le m (integrateForces m inp p)
  have : vsq (integrateForces m inp p) = m.damping ^ 2 * vsq p := by
    unfold vsq
    rw [ex, ey, ez]
    ring
  calc vsq (step1 m inp p) ≤ vsq (integrateForces m inp p) := hb
    _ = m.damping ^ 2 * vsq p := this

theorem vsq_iter_le (m : Mode) (env : ℕ → StepInput) (p : Particle)
    (h0 : m.mouseForce = 0) (h1 : m.drift = 0) (h2 : m.swirl = 0)
    (h3 : m.centerPull = 0) (n : ℕ) :
    vsq (iterSteps m env p n) ≤ (m.damping ^ 2) ^ n * vsq p := by
  induction n with
  | zero => simp [iterSteps]
  | succ n ih =>
    have hstep := vsq_step_le m (env n) (iterSteps m env p n) h0 h1 h2 h3
    have hsq : (0 : ℚ) ≤ m.damping ^ 2 := sq_nonneg _
    calc vsq (iterSteps m env p (n + 1))
        ≤ m.damping ^ 2 * vsq (iterSteps m env p n) := hstep
      _ ≤ m.damping ^ 2 * ((m.damping ^ 2) ^ n * vsq p) :=
          mul_le_mul_of_nonneg_left ih hsq
      _ = (m.damping ^ 2) ^ (n + 1) * vsq p := by ring

/-- C5: with `mouseForce`, `drift`, `swirl` and `centerPull` all zero and
damping in `(0, 1)`, every step strictly decreases the (squared) velocity
magnitude of any particle with nonzero velocity, and the velocity magnitude
tends to zero as the tick count grows (for every `ε > 0` the squared
magnitude is eventually below `ε`).  Squared magnitude is used throughout;
it orders exactly as the magnitude does. -/
theorem velocity_decay (m : Mode) (h0 : m.mouseForce = 0) (h1 : m.drift = 0)
    (h2 : m.swirl = 0) (h3 : m.centerPull = 0) (hd0 : 0 < m.damping)
    (hd1 : m.damping < 1) :
    (∀ (inp : StepInput) (p : Particle), vsq p ≠ 0 →
      vsq (step1 m inp p) < vsq p) ∧
    (∀ (env : ℕ → StepInput) (p : Particle) (ε : ℚ), 0 < ε →
      ∃ N : ℕ, ∀ n, N ≤ n → vsq (iterSteps m env p n) < ε) := by
  have hsq0 : (0 : ℚ) ≤ m.damping ^ 2 := sq_nonneg _
  have hsq1 : m.damping ^ 2 < 1 := by nlinarith
  constructor
  · intro inp p hp
    have hpos : 0 < vsq p := lt_of_le_of_ne (vsq_nonneg p) (Ne.symm hp)
    calc vsq (step1 m inp p) ≤ m.damping ^ 2 * vsq p :=
          vsq_step_le m inp p h0 h1 h2 h3
      _ < 1 * vsq p := mul_lt_mul_of_pos_right hsq1 hpos
      _ = vsq p := one_mul _
  · intro env p ε hε
    by_cases hp : vsq p = 0
    · refine ⟨0, fun n _ => ?_⟩
      have := vsq_iter_le m env p h0 h1 h2 h3 n
      rw [hp, mul_zero] at this
      have := le_antisymm this (vsq_nonneg _)
      rw [this]
      exact hε
    · have hpos : 0 < vsq p := lt_of_le_of_ne (vsq_nonneg p) (Ne.symm hp)
      obtain ⟨N, hN⟩ := exists_pow_lt_of_lt_one (x := ε / vsq p)
        (y := m.damping ^ 2) (by positivity) hsq1
      refine ⟨N, fun n hn => ?_⟩
      have hmono : (m.damping ^ 2) ^ n ≤ (m.damping ^ 2) ^ N :=
        pow_le_pow_of_le_one hsq0 (le_of_lt hsq1) hn
      calc vsq (iterSteps m env p n) ≤ (m.damping ^ 2) ^ n * vsq p :=
            vsq_iter_le m env p h0 h1 h2 h3 n
        _ ≤ (m.damping ^ 2) ^ N * vsq p :=
            mul_le_mul_of_nonneg_right hmono (le_of_lt hpos)
        _ < (ε / vsq p) * vsq p := mul_lt_mul_of_pos_right hN hpos
        _ = ε := div_mul_cancel₀ ε (ne_of_gt hpos)

/-- A mode with all force parameters zero and damping `1/2`, used to witness
C5 at a concrete input. -/
def zeroForceMode : Mode :=
  { name := "rest"
    hueRange := (0, 1)
    satRange := (0, 1)
    lightRange := (0, 1)
    damping := 1/2
    mouseForce := 0
    drift := 0
    centerPull := 0
    equilibrium := 0
    swirl := 0
    sizeRange := (0, 1)
    bloom := 0
    depthRange := 40 }

/-- Witness for C5: one step at damping `1/2` strictly shrinks the squared
velocity of a particle with unit x velocity. -/
theorem velocity_decay_witness :
    vsq (step1 zeroForceMode voidSceneInput ⟨0, 0, 0, 1, 0, 0⟩) <
      vsq ⟨0, 0, 0, 1, 0, 0⟩ :=
  (velocity_decay zeroForceMode rfl rfl rfl rfl (by norm_num [zeroForceMode])
      (by norm_num [zeroForceMode])).1
    voidSceneInput ⟨0, 0, 0, 1, 0, 0⟩ (by norm_num [vsq])

-- ── color sampling and transition targets (C4, C6, C8) ─────────────────

/-- Hue range selection, `getHueRange` in `main.ts`: the mode's own range,
or a `±0.06` band around the active color override. -/
def getHueRange (ov : Option ℚ) (m : Mode) : ℚ × ℚ :=
  match ov with
  | none => m.hueRange
  | some h => (h - 0.06, h + 0.06)

/-- Saturation range selection, `getSatRange` in `main.ts`: the mode's own
range, or the range with its endpoints boosted to at least `0.5` / `0.9`
while an override is active. -/
def getSatRange (ov : Option ℚ) (m : Mode) : ℚ × ℚ :=
  match ov with
  | none => m.satRange
  | some _ => (max m.satRange.1 0.5, max m.satRange.2 0.9)

/-- Piecewise-linear hue-to-channel helper of `THREE.Color.setHSL` (the
external three.js routine through which sampled HSL triples are stored as
RGB). -/
def hue2rgb (p q t : ℚ) : ℚ :=
  let t1 := if t < 0 then t + 1 else t
  let t2 := if 1 < t1 then t1 - 1 else t1
  if t2 < 1/6 then p + (q - p) * 6 * t2
  else if t2 < 1/2 then q
  else if t2 < 2/3 then p + (q - p) * 6 * (2/3 - t2)
  else p

/-- Clamp to `[0, 1]`. -/
def clamp01 (x : ℚ) : ℚ := max 0 (min x 1)

/-- HSL to linear RGB, mirroring `THREE.Color.setHSL`: hue wrapped into
`[0, 1)` by a euclidean modulus, saturation and lightness clamped. -/
def setHSL (h s l : ℚ) : ℚ × ℚ × ℚ :=
  let h1 := h - ⌊h⌋
  let s1 := clamp01 s
  let l1 := clamp01 l
  if s1 = 0 then (l1, l1, l1)
  else
    let p := if l1 ≤ 1/2 then l1 * (1 + s1) else l1 + s1 - l1 * s1
    let q := 2 * l1 - p
    (hue2rgb q p (h1 + 1/3), hue2rgb q p h1, hue2rgb q p (h1 - 1/3))

/-- The HSL triple sampled for particle `i` inside `precomputeTargets`
(and identically inside `randomizeParticle`): `ρ (4*i)`, `ρ (4*i+1)`,
`ρ (4*i+2)` are the particle's three `Math.random()` draws for hue,
saturation and lightness. -/
def sampledHSL (ov : Option ℚ) (m : Mode) (ρ : ℕ → ℚ) (i : ℕ) : ℚ × ℚ × ℚ :=
  let hr := getHueRange ov m
  let sr := getSatRange ov m
  (hr.1 + ρ (4 * i) * (hr.2 - hr.1),
   sr.1 + ρ (4 * i + 1) * (sr.2 - sr.1),
   m.lightRange.1 + ρ (4 * i + 2) * (m.lightRange.2 - m.lightRange.1))

/-- The size sampled for particle `i` inside `precomputeTargets`:
`ρ (4*i+3)` is the particle's fourth `Math.random()` draw. -/
def sampledSize (m : Mode) (ρ : ℕ → ℚ) (i : ℕ) : ℚ :=
  m.sizeRange.1 + ρ (4 * i + 3) * (m.sizeRange.2 - m.sizeRange.1)

/-- The RGB target color stored for particle `i`: the sampled HSL triple
pushed through `setHSL`. -/
def sampledColorRGB (ov : Option ℚ) (m : Mode) (ρ : ℕ → ℚ) (i : ℕ) :
    ℚ × ℚ × ℚ :=
  let hsl := sampledHSL ov m ρ i
  setHSL hsl.1 hsl.2.1 hsl.2.2

/-- Fresh per-particle transition targets, `precomputeTargets` in
`main.ts`: for each of `count` particles, a freshly sampled target color
(stored as RGB through `setHSL`) and target size. -/
def precomputeTargets (ov : Option ℚ) (m : Mode) (ρ : ℕ → ℚ) (count : ℕ) :
    List (ℚ × ℚ × ℚ) × List ℚ :=
  ((List.range count).map fun i => sampledColorRGB ov m ρ i,
   (List.range count).map fun i => sampledSize m ρ i)

theorem precomputeTargets_getElem (ov : Option ℚ) (m : Mode) (ρ : ℕ → ℚ)
    (count : ℕ) (i : ℕ) (hi : i < count) :
    (precomputeTargets ov m ρ count).1[i]? = some (sampledColorRGB ov m ρ i) ∧
    (precomputeTargets ov m ρ count).2[i]? = some (sampledSize m ρ i) := by
  unfold precomputeTargets
  constructor <;> simp [List.getElem?_map, List.getElem?_range, hi]

/-- Whole-system state touched by `setMode`: the blend globals, the color
override, and the per-particle buffers (particle count fixed at `count`). -/
structure SysState where
  currentMode : ℕ
  targetMode : ℕ
  modeBlend : ℚ
  colorOverride : Option ℚ
  count : ℕ
  particles : List Particle
  colors : List (ℚ × ℚ × ℚ)
  sizes : List ℚ
  alphas : List ℚ
  targetColors : List (ℚ × ℚ × ℚ)
  targetSizes : List ℚ

/-- Mode-transition request, `setMode` in `main.ts`.  Returns the new state
and whether a sound cue was emitted (`audio.setMode` reached).  An invalid
index returns immediately; a request for the settled mode while the blend
is at rest returns immediately; otherwise the target index is set, the
blend fraction reset to 0, and all per-particle targets resampled.  In the
resampling branch the index is valid, so `getD`'s default is never used. -/
def setMode (index : ℤ) (ρ : ℕ → ℚ) (s : SysState) : SysState × Bool :=
  if index < 0 ∨ (MODES.length : ℤ) ≤ index then (s, false)
  else if index = (s.currentMode : ℤ) ∧ 1 ≤ s.modeBlend then (s, false)
  else
    let m := MODES.getD index.toNat nebula
    let tgts := precomputeTargets s.colorOverride m ρ s.count
    ({ s with targetMode := index.toNat
              modeBlend := 0
              targetColors := tgts.1
              targetSizes := tgts.2 }, true)

-- ── C8 ─────────────────────────────────────────────────────────────────

/-- C8: a transition request with an integer index outside
`[0, MODES.length)` is a complete no-op — the state (settled index, target
index, blend fraction, and every per-particle buffer) is returned unchanged
and no sound cue is emitted. -/
theorem setMode_invalid_noop (index : ℤ) (ρ : ℕ → ℚ) (s : SysState)
    (h : index < 0 ∨ (MODES.length : ℤ) ≤ index) :
    setMode index ρ s = (s, false) := by
  unfold setMode
  rw [if_pos h]

/-- Witness for C8 at index 5 (the mode table has 5 entries). -/
theorem setMode_invalid_noop_witness :
    setMode 5 (fun _ => 1/2)
      ⟨4, 4, 1, none, 0, [], [], [], [], [], []⟩ =
      (⟨4, 4, 1, none, 0, [], [], [], [], [], []⟩, false) :=
  setMode_invalid_noop 5 (fun _ => 1/2)
    ⟨4, 4, 1, none, 0, [], [], [], [], [], []⟩
    (Or.inr (by norm_num [ MODES]))

-- ── C4 ─────────────────────────────────────────────────────────────────

/-- C4: for a valid index, a transition request is a no-op (state returned
unchanged, no cue) exactly when the index equals the settled mode and the
blend fraction is at rest (`≥ 1`); in every other case it resets the blend
fraction to 0, sets the target index, emits the cue, and replaces the
per-particle target-color and target-size buffers with fresh samples that
depend only on the requested mode, the color override, the random stream
and the particle count — not on the previous target index or fraction. -/
theorem setMode_last_writer_wins (index : ℤ) (ρ : ℕ → ℚ) (s : SysState)
    (hv : 0 ≤ index ∧ index < (MODES.length : ℤ)) :
    (setMode index ρ s = (s, false) ↔
      index = (s.currentMode : ℤ) ∧ 1 ≤ s.modeBlend) ∧
    (¬ (index = (s.currentMode : ℤ) ∧ 1 ≤ s.modeBlend) →
      (setMode index ρ s).1.modeBlend = 0 ∧
      (setMode index ρ s).1.targetMode = index.toNat ∧
      (setMode index ρ s).1.targetColors =
        (precomputeTargets s.colorOverride (MODES.getD index.toNat nebula) ρ
          s.count).1 ∧
      (setMode index ρ s).1.targetSizes =
        (precomputeTargets s.colorOverride (MODES.getD index.toNat nebula) ρ
          s.count).2 ∧
      (∀ i : ℕ, i < s.count →
        (setMode index ρ s).1.targetColors[i]? =
          some (sampledColorRGB s.colorOverride
            (MODES.getD index.toNat nebula) ρ i) ∧
        (setMode index ρ s).1.targetSizes[i]? =
          some (sampledSize (MODES.getD index.toNat nebula) ρ i)) ∧
      (setMode index ρ s).2 = true) := by
  have hval : ¬ (index < 0 ∨ (MODES.length : ℤ) ≤ index) := by
    push_neg
    exact ⟨hv.1, hv.2⟩
  constructor
  · constructor
    · intro heq
      by_contra hc
      unfold setMode at heq
      rw [if_neg hval, if_neg hc] at heq
      exact Bool.noConfusion (congrArg Prod.snd heq)
    · intro hc
      unfold setMode
      rw [if_neg hval, if_pos hc]
  · intro hc
    unfold setMode
    rw [if_neg hval, if_neg hc]
    exact ⟨rfl, rfl, rfl, rfl,
      fun i hi => precomputeTargets_getElem s.colorOverride
        (MODES.getD index.toNat nebula) ρ s.count i hi, rfl⟩

/-- Witness for C4: requesting mode 2 while settled at mode 4 with the
blend at rest resets the fraction, retargets, and emits the cue. -/
theorem setMode_last_writer_wins_witness :
    (setMode 2 (fun _ => 1/2)
        ⟨4, 4, 1, none, 1, [], [], [], [], [], []⟩).1.modeBlend = 0 ∧
    (setMode 2 (fun _ => 1/2)
        ⟨4, 4, 1, none, 1, [], [], [], [], [], []⟩).1.targetMode = 2 ∧
    (setMode 2 (fun _ => 1/2)
        ⟨4, 4, 1, none, 1, [], [], [], [], [], []⟩).2 = true := by
  have h := (setMode_last_writer_wins 2 (fun _ => 1/2)
      ⟨4, 4, 1, none, 1, [], [], [], [], [], []⟩
      ⟨by norm_num, by norm_num [ MODES]⟩).2 (by norm_num)
  exact ⟨h.1, h.2.1, h.2.2.2.2.2⟩

-- ── C6 ─────────────────────────────────────────────────────────────────

/-- C6: while a color override hue `h` is active, every freshly sampled
color target (the sampling common to transition requests and recolor
requests) has hue within `[h - 0.06, h + 0.06]` and saturation at least
`0.5`, for random draws in `[0, 1]`. -/
theorem color_override_containment (h : ℚ) (m : Mode) (ρ : ℕ → ℚ) (i : ℕ)
    (hr0 : 0 ≤ ρ (4 * i)) (hr1 : ρ (4 * i) ≤ 1)
    (hs0 : 0 ≤ ρ (4 * i + 1)) (hs1 : ρ (4 * i + 1) ≤ 1) :
    h - 0.06 ≤ (sampledHSL (some h) m ρ i).1 ∧
    (sampledHSL (some h) m ρ i).1 ≤ h + 0.06 ∧
    1/2 ≤ (sampledHSL (some h) m ρ i).2.1 := by
  unfold sampledHSL getHueRange getSatRange
  simp only
  have hm1 : (1 : ℚ)/2 ≤ max m.satRange.1 0.5 := by
    apply le_max_of_le_right
    norm_num
  have hm2 : (1 : ℚ)/2 ≤ max m.satRange.2 0.9 := by
    apply le_max_of_le_right
    norm_num
  refine ⟨by nlinarith, by nlinarith, by nlinarith⟩

/-- Witness for C6 at override hue `0.3` on the void mode with all draws at
`1/2`. -/
theorem color_override_containment_witness :
    (0.3 : ℚ) - 0.06 ≤ (sampledHSL (some 0.3) voidMode (fun _ => 1/2) 0).1 ∧
    (sampledHSL (some 0.3) voidMode (fun _ => 1/2) 0).1 ≤ 0.3 + 0.06 ∧
    1/2 ≤ (sampledHSL (some 0.3) voidMode (fun _ => 1/2) 0).2.1 :=
  color_override_containment 0.3 voidMode (fun _ => 1/2) 0
    (by norm_num) (by norm_num) (by norm_num) (by norm_num)

-- ── click burst (C7, C10) ──────────────────────────────────────────────

/-- The per-particle body of the `burstAt` loop in `main.ts`: eligibility is
a squared-distance test on the two lateral axes; an affected particle gets a
velocity kick along the lateral offset (denominator `sqrt(distSq) + 0.5`)
scaled by `strength = (1 - distSq/radius²) * force`, plus a random jitter on
the depth axis.  `sq` stands for `Math.sqrt`; `r` is the particle's
`Math.random()` draw. -/
def burstParticle (wx wy force : ℚ) (sq : ℚ → ℚ) (r : ℚ) (p : Particle) :
    Particle :=
  let radius : ℚ := 12
  let radiusSq := radius * radius
  let dx := p.px - wx
  let dy := p.py - wy
  let distSq := dx * dx + dy * dy
  if distSq < radiusSq then
    let strength := (1 - distSq / radiusSq) * force
    let dist := sq distSq + 0.5
    { p with vx := p.vx + dx / dist * strength
             vy := p.vy + dy / dist * strength
             vz := p.vz + (r - 0.5) * |strength| * 0.3 }
  else p

/-- The click burst, `burstAt` in `main.ts`: applies `burstParticle` to
every particle (force `-3` when pushing, `3` otherwise) and then triggers
the impact sound cue exactly once, unconditionally — the second component
counts the `audio.triggerBurst()` calls. -/
def burstAt (wx wy : ℚ) (push : Bool) (sq : ℚ → ℚ) (ρ : ℕ → ℚ)
    (parts : List Particle) : List Particle × ℕ :=
  let force : ℚ := if push then -3 else 3
  (parts.mapIdx fun i p => burstParticle wx wy force sq (ρ i) p, 1)

theorem burstAt_getElem (wx wy : ℚ) (push : Bool) (sq : ℚ → ℚ) (ρ : ℕ → ℚ)
    (parts : List Particle) (i : ℕ) (p : Particle) (hp : parts[i]? = some p) :
    (burstAt wx wy push sq ρ parts).1[i]? =
      some (burstParticle wx wy (if push then -3 else 3) sq (ρ i) p) := by
  unfold burstAt
  simp only [List.getElem?_mapIdx, hp, Option.map_some']

theorem burstParticle_hit (wx wy force : ℚ) (sq : ℚ → ℚ) (r : ℚ) (p : Particle)
    (h : (p.px - wx) * (p.px - wx) + (p.py - wy) * (p.py - wy) < 144) :
    burstParticle wx wy force sq r p =
      { px := p.px, py := p.py, pz := p.pz
        vx := p.vx + (p.px - wx) /
            (sq ((p.px - wx) * (p.px - wx) + (p.py - wy) * (p.py - wy)) + 0.5) *
            ((1 - ((p.px - wx) * (p.px - wx) + (p.py - wy) * (p.py - wy)) / 144) *
              force)
        vy := p.vy + (p.py - wy) /
            (sq ((p.px - wx) * (p.px - wx) + (p.py - wy) * (p.py - wy)) + 0.5) *
            ((1 - ((p.px - wx) * (p.px - wx) + (p.py - wy) * (p.py - wy)) / 144) *
              force)
        vz := p.vz + (r - 0.5) *
            |(1 - ((p.px - wx) * (p.px - wx) + (p.py - wy) * (p.py - wy)) / 144) *
              force| * 0.3 } := by
  unfold burstParticle
  rw [if_pos (by norm_num; exact h)]
  norm_num

theorem burstParticle_miss (wx wy force : ℚ) (sq : ℚ → ℚ) (r : ℚ) (p : Particle)
    (h : ¬ ((p.px - wx) * (p.px - wx) + (p.py - wy) * (p.py - wy) < 144)) :
    burstParticle wx wy force sq r p = p := by
  unfold burstParticle
  rw [if_neg (by push_neg at h ⊢; linarith)]

/-- The `Math.sqrt` oracle for the burst scenario: the only call made is at
squared distance 36, whose exact square root is 6. -/
def sqrtBurstScene : ℚ → ℚ := fun q => if q = 36 then 6 else 0

-- ── C7 ─────────────────────────────────────────────────────────────────

/-- C7: (i) `burstAt` triggers the impact cue exactly once per call for any
particle list, including the empty one; (ii) every particle whose lateral
squared distance from the burst point is below `radius² = 144` receives the
velocity delta `strength = (1 - distSq/144) × (push ? -3 : 3)` along the
lateral offset with the `sqrt(distSq) + 0.5` denominator, plus a depth
jitter `(ρ i - 0.5) × |strength| × 0.3`; (iii) in the non-pushing scenario
with one particle at lateral distance 6, the strength is
`(1 - 36/144) × 3 = 9/4 = 2.25` and the resulting kick
`(6/6.5) × 2.25 = 27/13` points away from the burst point. -/
theorem burst_impulse_kick_and_cue (wx wy : ℚ) (push : Bool) (sq : ℚ → ℚ)
    (ρ : ℕ → ℚ) (parts : List Particle) :
    (burstAt wx wy push sq ρ parts).2 = 1 ∧
    (∀ (i : ℕ) (p : Particle), parts[i]? = some p →
      (p.px - wx) * (p.px - wx) + (p.py - wy) * (p.py - wy) < 144 →
      (burstAt wx wy push sq ρ parts).1[i]? = some
        { px := p.px, py := p.py, pz := p.pz
          vx := p.vx + (p.px - wx) /
              (sq ((p.px - wx) * (p.px - wx) + (p.py - wy) * (p.py - wy)) + 0.5) *
              ((1 - ((p.px - wx) * (p.px - wx) + (p.py - wy) * (p.py - wy)) / 144) *
                (if push then -3 else 3))
          vy := p.vy + (p.py - wy) /
              (sq ((p.px - wx) * (p.px - wx) + (p.py - wy) * (p.py - wy)) + 0.5) *
              ((1 - ((p.px - wx) * (p.px - wx) + (p.py - wy) * (p.py - wy)) / 144) *
                (if push then -3 else 3))
          vz := p.vz + (ρ i - 0.5) *
              |(1 - ((p.px - wx) * (p.px - wx) + (p.py - wy) * (p.py - wy)) / 144) *
                (if push then -3 else 3)| * 0.3 }) ∧
    (1 - 36 / 144 : ℚ) * 3 = 9/4 ∧
    (burstAt 0 0 false sqrtBurstScene (fun _ => 1/2) [⟨6, 0, 0, 0, 0, 0⟩]).1 =
      [⟨6, 0, 0, 27/13, 0, 0⟩] := by
  refine ⟨rfl, ?_, by norm_num, ?_⟩
  · intro i p hp hd
    rw [burstAt_getElem wx wy push sq ρ parts i p hp,
      burstParticle_hit wx wy (if push then -3 else 3) sq (ρ i) p hd]
  · norm_num [burstAt, burstParticle, sqrtBurstScene, List.mapIdx_cons,
      List.mapIdx_nil]

/-- Witness for C7: the scenario particle at lateral distance 6 as read off
through the general kick formula. -/
theorem burst_impulse_kick_and_cue_witness :
    (burstAt 0 0 false sqrtBurstScene (fun _ => 1/2) [⟨6, 0, 0, 0, 0, 0⟩]).1[0]? =
      some
        { px := (⟨6, 0, 0, 0, 0, 0⟩ : Particle).px
          py := (⟨6, 0, 0, 0, 0, 0⟩ : Particle).py
          pz := (⟨6, 0, 0, 0, 0, 0⟩ : Particle).pz
          vx := (⟨6, 0, 0, 0, 0, 0⟩ : Particle).vx +
              ((⟨6, 0, 0, 0, 0, 0⟩ : Particle).px - 0) /
              (sqrtBurstScene (((⟨6, 0, 0, 0, 0, 0⟩ : Particle).px - 0) *
                  ((⟨6, 0, 0, 0, 0, 0⟩ : Particle).px - 0) +
                  ((⟨6, 0, 0, 0, 0, 0⟩ : Particle).py - 0) *
                  ((⟨6, 0, 0, 0, 0, 0⟩ : Particle).py - 0)) + 0.5) *
              ((1 - (((⟨6, 0, 0, 0, 0, 0⟩ : Particle).px - 0) *
                  ((⟨6, 0, 0, 0, 0, 0⟩ : Particle).px - 0) +
                  ((⟨6, 0, 0, 0, 0, 0⟩ : Particle).py - 0) *
                  ((⟨6, 0, 0, 0, 0, 0⟩ : Particle).py - 0)) / 144) *
                (if false then -3 else 3))
          vy := (⟨6, 0, 0, 0, 0, 0⟩ : Particle).vy +
              ((⟨6, 0, 0, 0, 0, 0⟩ : Particle).py - 0) /
              (sqrtBurstScene (((⟨6, 0, 0, 0, 0, 0⟩ : Particle).px - 0) *
                  ((⟨6, 0, 0, 0, 0, 0⟩ : Particle).px - 0) +
                  ((⟨6, 0, 0, 0, 0, 0⟩ : Particle).py - 0) *
                  ((⟨6, 0, 0, 0, 0, 0⟩ : Particle).py - 0)) + 0.5) *
              ((1 - (((⟨6, 0, 0, 0, 0, 0⟩ : Particle).px - 0) *
                  ((⟨6, 0, 0, 0, 0, 0⟩ : Particle).px - 0) +
                  ((⟨6, 0, 0, 0, 0, 0⟩ : Particle).py - 0) *
                  ((⟨6, 0, 0, 0, 0, 0⟩ : Particle).py - 0)) / 144) *
                (if false then -3 else 3))
          vz := (⟨6, 0, 0, 0, 0, 0⟩ : Particle).vz + ((1:ℚ)/2 - 0.5) *
              |(1 - (((⟨6, 0, 0, 0, 0, 0⟩ : Particle).px - 0) *
                  ((⟨6, 0, 0, 0, 0, 0⟩ : Particle).px - 0) +
                  ((⟨6, 0, 0, 0, 0, 0⟩ : Particle).py - 0) *
                  ((⟨6, 0, 0, 0, 0, 0⟩ : Particle).py - 0)) / 144) *
                (if false then -3 else 3)| * 0.3 } :=
  (burst_impulse_kick_and_cue 0 0 false sqrtBurstScene (fun _ => 1/2)
      [⟨6, 0, 0, 0, 0, 0⟩]).2.1 0 ⟨6, 0, 0, 0, 0, 0⟩ rfl (by norm_num)

-- ── C10 ────────────────────────────────────────────────────────────────

/-- C10: in the burst operation (i) each list entry goes through the
per-particle kick; (ii) the kick is invariant under changing the depth
position and depth velocity — eligibility and the lateral deltas use only
the lateral coordinates, and the depth delta is the same additive term;
(iii) a centered depth draw (`ρ i = 1/2`) leaves the depth velocity
unchanged, so the depth kick has no deterministic contribution;
(iv) a particle at lateral squared distance `≥ 144` is unaffected
regardless of its depth coordinate. -/
theorem burst_lateral_only (wx wy : ℚ) (push : Bool) (sq : ℚ → ℚ)
    (ρ : ℕ → ℚ) (parts : List Particle) (i : ℕ) (p : Particle)
    (hp : parts[i]? = some p) :
    ((burstAt wx wy push sq ρ parts).1[i]? =
      some (burstParticle wx wy (if push then -3 else 3) sq (ρ i) p)) ∧
    (∀ z v : ℚ,
      burstParticle wx wy (if push then -3 else 3) sq (ρ i)
          ⟨p.px, p.py, z, p.vx, p.vy, v⟩ =
        ⟨p.px, p.py, z,
         (burstParticle wx wy (if push then -3 else 3) sq (ρ i) p).vx,
         (burstParticle wx wy (if push then -3 else 3) sq (ρ i) p).vy,
         v + ((burstParticle wx wy (if push then -3 else 3) sq (ρ i) p).vz -
           p.vz)⟩) ∧
    (ρ i = 1/2 →
      (burstParticle wx wy (if push then -3 else 3) sq (ρ i) p).vz = p.vz) ∧
    (¬ ((p.px - wx) * (p.px - wx) + (p.py - wy) * (p.py - wy) < 144) →
      burstParticle wx wy (if push then -3 else 3) sq (ρ i) p = p) := by
  refine ⟨burstAt_getElem wx wy push sq ρ parts i p hp, ?_, ?_, ?_⟩
  · intro z v
    by_cases h : (p.px - wx) * (p.px - wx) + (p.py - wy) * (p.py - wy) < 144
    · have h2 : ((⟨p.px, p.py, z, p.vx, p.vy, v⟩ : Particle).px - wx) *
          ((⟨p.px, p.py, z, p.vx, p.vy, v⟩ : Particle).px - wx) +
          ((⟨p.px, p.py, z, p.vx, p.vy, v⟩ : Particle).py - wy) *
          ((⟨p.px, p.py, z, p.vx, p.vy, v⟩ : Particle).py - wy) < 144 := h
      rw [burstParticle_hit wx wy _ sq (ρ i) _ h2,
        burstParticle_hit wx wy _ sq (ρ i) p h]
      simp only [Particle.mk.injEq, true_and, and_true]
      ring
    · have h2 : ¬ (((⟨p.px, p.py, z, p.vx, p.vy, v⟩ : Particle).px - wx) *
          ((⟨p.px, p.py, z, p.vx, p.vy, v⟩ : Particle).px - wx) +
          ((⟨p.px, p.py, z, p.vx, p.vy, v⟩ : Particle).py - wy) *
          ((⟨p.px, p.py, z, p.vx, p.vy, v⟩ : Particle).py - wy) < 144) := h
      rw [burstParticle_miss wx wy _ sq (ρ i) _ h2,
        burstParticle_miss wx wy _ sq (ρ i) p h]
      simp only [Particle.mk.injEq, true_and, and_true]
      ring
  · intro hr
    by_cases h : (p.px - wx) * (p.px - wx) + (p.py - wy) * (p.py - wy) < 144
    · rw [burstParticle_hit wx wy _ sq (ρ i) p h]
      simp only
      rw [hr]
      ring
    · rw [burstParticle_miss wx wy _ sq (ρ i) p h]
  · intro h
    exact burstParticle_miss wx wy _ sq (ρ i) p h

/-- Witness for C10: the scenario particle, with a centered depth draw,
keeps its depth velocity. -/
theorem burst_lateral_only_witness :
    (burstParticle 0 0 (if false then -3 else 3) sqrtBurstScene
        ((fun _ : ℕ => (1:ℚ)/2) 0) ⟨6, 0, 0, 0, 0, 0⟩).vz =
      (⟨6, 0, 0, 0, 0, 0⟩ : Particle).vz :=
  (burst_lateral_only 0 0 false sqrtBurstScene (fun _ => 1/2)
      [⟨6, 0, 0, 0, 0, 0⟩] 0 ⟨6, 0, 0, 0, 0, 0⟩ rfl).2.2.1 rfl

-- ── ambient sound engine (C9) ──────────────────────────────────────────

/-- The kinds of one-shot synthesis cues `AmbientSound` can schedule. -/
inductive CueKind where
  | burstThump
  | burstNoise
  | colorNote
  | sweep
deriving DecidableEq

/-- Observable state of `AmbientSound` in `src/audio.ts`: whether the audio
graph has been built (`ctx !== null`), whether the engine is enabled, the
stored mode index, and the list of scheduled one-shot cues.  Drone retuning
ramps existing voices in place and schedules no cue, so it is not a
`CueKind`. -/
structure SoundState where
  ctxBuilt : Bool
  enabled : Bool
  soundMode : ℕ
  cues : List CueKind
deriving DecidableEq

/-- `AmbientSound.triggerBurst`: guarded by `!this.ctx || !this._enabled`;
when it runs it schedules the low thump and the filtered noise burst. -/
def triggerBurst (s : SoundState) : SoundState :=
  if !s.ctxBuilt || !s.enabled then s
  else { s with cues := s.cues ++ [CueKind.burstThump, CueKind.burstNoise] }

/-- `AmbientSound.triggerColorChange`: guarded by
`!this.ctx || !this._enabled`; when it runs it schedules two short rising
notes. -/
def triggerColorChange (s : SoundState) : SoundState :=
  if !s.ctxBuilt || !s.enabled then s
  else { s with cues := s.cues ++ [CueKind.colorNote, CueKind.colorNote] }

/-- `AmbientSound.triggerSweep` (private): guarded by `!this.ctx`; schedules
the band-pass noise sweep. -/
def triggerSweep (s : SoundState) : SoundState :=
  if !s.ctxBuilt then s
  else { s with cues := s.cues ++ [CueKind.sweep] }

/-- `AmbientSound.setMode`: always records the mode index, then — only when
the graph is built and the engine enabled — retunes the drones in place and
schedules the transition sweep. -/
def soundSetMode (index : ℕ) (s : SoundState) : SoundState :=
  let s1 := { s with soundMode := index }
  if !s1.ctxBuilt || !s1.enabled then s1
  else triggerSweep s1

-- ── C9 ─────────────────────────────────────────────────────────────────

/-- C9: whenever the audio graph has not been built or the engine is not
enabled, every cue-trigger entry point is a safe no-op that schedules no
synthesis: `triggerBurst` and `triggerColorChange` return the state
unchanged, and `setMode` (the entry point covering the drone retune and the
transition sweep) leaves the scheduled-cue list unchanged.  All operations
are total functions, so no error can be raised. -/
theorem sound_disabled_noop (s : SoundState) (i : ℕ)
    (h : s.ctxBuilt = false ∨ s.enabled = false) :
    triggerBurst s = s ∧ triggerColorChange s = s ∧
    (soundSetMode i s).cues = s.cues := by
  have hg : (!s.ctxBuilt || !s.enabled) = true := by
    rcases h with h | h <;> rw [h] <;> simp
  refine ⟨?_, ?_, ?_⟩
  · unfold triggerBurst
    rw [if_pos hg]
  · unfold triggerColorChange
    rw [if_pos hg]
  · unfold soundSetMode
    simp only
    rw [if_pos hg]

/-- Witness for C9: a built but muted engine schedules nothing on any
trigger. -/
theorem sound_disabled_noop_witness :
    triggerBurst ⟨true, false, 4, []⟩ = ⟨true, false, 4, []⟩ ∧
    triggerColorChange ⟨true, false, 4, []⟩ = ⟨true, false, 4, []⟩ ∧
    (soundSetMode 2 ⟨true, false, 4, []⟩).cues =
      (⟨true, false, 4, []⟩ : SoundState).cues :=
  sound_disabled_noop ⟨true, false, 4, []⟩ 2 (Or.inr rfl)

end ParticleCosmos
